import Mathlib

/-!
Verification of the hn-prospector comment-thread parser, interest classifier
and ranker, as a shallow embedding of `src/hn_prospector/parser.py`,
`src/hn_prospector/filter.py`, `src/hn_prospector/hn_client.py` and
`src/hn_prospector/ranking.py`.

Python machine-level detail that the embedding fixes once and for all:
Python integers are unbounded, so they are `Int`/`Nat`; `str.strip()` drops
leading and trailing whitespace; `str.split()` with no argument splits on
whitespace runs and drops empty tokens.
-/

namespace HNProspector

/-! ## Python string primitives

Implemented over character lists (structurally recursive, so that concrete
inputs evaluate inside the kernel). -/

/-- `str.strip()` on a character list: drop leading and trailing whitespace. -/
def stripChars (l : List Char) : List Char :=
  ((l.dropWhile Char.isWhitespace).reverse.dropWhile Char.isWhitespace).reverse

/-- Python `str.strip()`. -/
def pyStrip (s : String) : String := ⟨stripChars s.data⟩

/-- Python `str.lower()` (ASCII range, which is all the patterns need). -/
def pyLower (s : String) : String := ⟨s.data.map Char.toLower⟩

/-! ## Text normalizer (`parser.py`, `_get_comment_text`)

A `commtext` div is a sequence of children; each child is either a `<p>` tag
(whose `get_text(strip=True)` we carry as its text), some other tag (skipped
by both branches of the loop), or a bare text node (a `NavigableString`).
The `try/except` that guards the whole loop is modelled by the `malformed`
constructor: any decoding failure inside the loop yields that case. -/

/-- One child of a `commtext` div, as traversed by `_get_comment_text`. -/
inductive BodyElem where
  /-- a `<p>` tag; `txt` is `str(element.get_text(strip=True))` -/
  | p (txt : String)
  /-- any other tag: neither branch of the loop fires, it contributes nothing -/
  | tag
  /-- a bare text node (`NavigableString`); `s` is `str(element)` -/
  | text (s : String)
  deriving DecidableEq, Repr

/-- The `commtext` div handed to `_get_comment_text`: either a child list the
loop can walk, or markup whose decoding raises (the `except` branch). -/
inductive Commtext where
  | ok (children : List BodyElem)
  | malformed
  deriving DecidableEq, Repr, Inhabited

/-- The loop body of `_get_comment_text`: `comment_parts` accumulates parts;
a `<p>` child first appends `'\n\n'` when `comment_parts` is non-empty and
then its text; a non-tag child is stripped and appended when non-empty. -/
def commentLoop : List String → List BodyElem → List String
  | parts, [] => parts
  | parts, BodyElem.p txt :: rest =>
      commentLoop (if parts.isEmpty then parts ++ [txt] else parts ++ ["\n\n", txt]) rest
  | parts, BodyElem.tag :: rest => commentLoop parts rest
  | parts, BodyElem.text s :: rest =>
      let t := pyStrip s
      commentLoop (if t = "" then parts else parts ++ [t]) rest

/-- `_get_comment_text(comment_div)`: run the loop, `"".join(...)` the parts and
`.strip()` the result; a decoding failure returns the empty string. -/
def get_comment_text : Commtext → String
  | Commtext.ok children => pyStrip (String.join (commentLoop [] children))
  | Commtext.malformed => ""

/-! ## Comment rows (`parser.py`, `parse_comments_by_user`)

One `<tr class="comtr">` as the parser inspects it: an optional
`<a class="hnuser">` username, an optional `<div class="commtext">` body, and
an optional `<td class="ind">` cell which itself may or may not carry an
`indent` attribute. -/

/-- One `tr.comtr` row. `ind = none` models a row without a `td.ind` cell;
`ind = some none` a cell without an `indent` attribute; `ind = some (some d)`
a cell whose `indent` attribute is the integer `d`. -/
structure Comtr where
  hnuser : Option String
  commtext : Option Commtext
  ind : Option (Option Int)
  deriving DecidableEq, Repr, Inhabited

/-- The guard `if ind_tag and ind_tag.has_attr('indent')` together with
`int(str(ind_tag['indent']))`: the row's indent, when the cell and the
attribute are both present. -/
def getIndent (tr : Comtr) : Option Int :=
  match tr.ind with
  | some (some d) => some d
  | _ => none

/-- The backward scan `for j in range(i - 1, -1, -1)`, fed the previous rows
in reverse order. Rows without indent data are stepped over; the first row
whose indent equals `target` stops the scan, yielding its `commtext` text
(or `""` when it has no `commtext` div, since `preceding_comment_text` keeps
its initial value and the loop still breaks). -/
def scanParent : List Comtr → Int → String
  | [], _ => ""
  | tr :: rest, target =>
      match getIndent tr with
      | some prevIndent =>
          if prevIndent = target then
            match tr.commtext with
            | some div => get_comment_text div
            | none => ""
          else scanParent rest target
      | none => scanParent rest target

/-- `preceding_comment_text` as computed for the row `tr` sitting at position
`i` of `comment_trs`: `""` when the row has no indent data or its indent is
not positive, otherwise the backward scan for indent `current_indent - 1`. -/
def parentTextAt (trs : List Comtr) (i : Nat) (tr : Comtr) : String :=
  match getIndent tr with
  | some current_indent =>
      if 0 < current_indent then scanParent ((trs.take i).reverse) (current_indent - 1)
      else ""
  | none => ""

/-- A comment pair `(preceding_comment_text, user_comment_text)`. -/
abbrev CommentPair := String × String

/-- The `comments_by_user` mapping, as an insertion-ordered association list
(Python dicts preserve insertion order). -/
abbrev UserIndex := List (String × List CommentPair)

/-- `comments_by_user[username].append(pair)` on a `defaultdict(list)`:
append to the existing entry, or create a new entry at the end. -/
def addPair : UserIndex → String → CommentPair → UserIndex
  | [], u, pr => [(u, [pr])]
  | (k, v) :: rest, u, pr =>
      if k = u then (k, v ++ [pr]) :: rest else (k, v) :: addPair rest u pr

/-- Dictionary lookup, `[]` for an absent key. -/
def lookupUser : UserIndex → String → List CommentPair
  | [], _ => []
  | (k, v) :: rest, u => if k = u then v else lookupUser rest u

/-- One iteration of the `for i, comment_tr in enumerate(comment_trs)` loop:
rows missing the username or the body are skipped, rows whose normalized own
text is empty are skipped (`continue`), all other rows append their pair. -/
def processRow (trs : List Comtr) (idx : UserIndex) (i : Nat) (tr : Comtr) : UserIndex :=
  match tr.hnuser, tr.commtext with
  | some username, some div =>
      let user_comment_text := get_comment_text div
      if user_comment_text = "" then idx
      else addPair idx username (parentTextAt trs i tr, user_comment_text)
  | _, _ => idx

/-- The whole loop, processing the rows in `l` whose first element sits at
position `i` of `trs`. -/
def parseFrom (trs : List Comtr) : Nat → List Comtr → UserIndex → UserIndex
  | _, [], idx => idx
  | i, tr :: rest, idx => parseFrom trs (i + 1) rest (processRow trs idx i tr)

/-- `parse_comments_by_user`: parse a full row list into the per-user index. -/
def parse_comments_by_user (trs : List Comtr) : UserIndex :=
  parseFrom trs 0 trs []

/-- The entry row `i` contributes to the index, if any: `none` for a skipped
row, `some (username, pair)` otherwise. -/
def pairForRow (trs : List Comtr) (i : Nat) (tr : Comtr) : Option (String × CommentPair) :=
  match tr.hnuser, tr.commtext with
  | some username, some div =>
      let user_comment_text := get_comment_text div
      if user_comment_text = "" then none
      else some (username, (parentTextAt trs i tr, user_comment_text))
  | _, _ => none

/-- The sequence of contributed entries, in document order. -/
def pairsFrom (trs : List Comtr) : Nat → List Comtr → List (String × CommentPair)
  | _, [] => []
  | i, tr :: rest =>
      match pairForRow trs i tr with
      | none => pairsFrom trs (i + 1) rest
      | some e => e :: pairsFrom trs (i + 1) rest

/-- A RawComment of the spec's data model: a row carrying all three fields
(username, integer indent depth, body markup). -/
structure RawComment where
  username : String
  indentDepth : Int
  bodyMarkup : Commtext
  deriving DecidableEq, Repr, Inhabited

/-- A RawComment seen as the fully-populated row the parser walks. -/
def toComtr (rc : RawComment) : Comtr :=
  { hnuser := some rc.username, commtext := some rc.bodyMarkup,
    ind := some (some rc.indentDepth) }

/-! ## Interest classifier (`filter.py`, `process_user`)

`INTERESTING_PATTERNS` is a case-insensitive alternation; `search` succeeds
when some alternative matches at some position. The matcher below scans the
lowercased character list and tests every suffix; `\w` is modelled as ASCII
`[a-zA-Z0-9_]`. -/

/-- Python regex `\w` (ASCII): letters, digits, underscore. -/
def isWordChar (c : Char) : Bool := c.isAlphanum || c = '_'

/-- The regex character class `[\w\.-]` of the e-mail alternative. -/
def isEmailChar (c : Char) : Bool := isWordChar c || c = '.' || c = '-'

/-- Whether the list starts with a `\w` character (for `\w+` after the dot). -/
def headIsWordChar : List Char → Bool
  | [] => false
  | c :: _ => isWordChar c

/-- After at least one `[\w\.-]` character has been consumed past the `@`:
can the rest match `[\w\.-]* \. \w`? Both readings of a dot — as part of
`[\w\.-]+` or as the literal `\.` — are tried, exactly as backtracking does. -/
def emailDot : List Char → Bool
  | [] => false
  | c :: rest => (c = '.' && headIsWordChar rest) || (isEmailChar c && emailDot rest)

/-- Does the part after the `@` match `[\w\.-]+\.\w` (the start of
`[\w\.-]+\.\w+`)? -/
def emailAfterAt : List Char → Bool
  | [] => false
  | w :: rest => isEmailChar w && emailDot rest

/-- Literal-string match at the head of the list. -/
def listStartsWith : List Char → List Char → Bool
  | [], _ => true
  | _ :: _, [] => false
  | p :: ps, c :: cs => p = c && listStartsWith ps cs

/-- Word boundary after a `\w` character: end of input or a non-`\w` char. -/
def boundaryAfter : List Char → Bool
  | [] => true
  | c :: _ => !isWordChar c

/-- Does some alternative of `INTERESTING_PATTERNS` match starting exactly at
this (already lowercased) suffix? The e-mail alternative is anchored one
character before its `@`, which `searchFrom` reaches by trying every suffix. -/
def matchesAt (l : List Char) : Bool :=
  listStartsWith "http://".toList l ||
  listStartsWith "https://".toList l ||
  (match l with
   | a :: '@' :: rest => isEmailChar a && emailAfterAt rest
   | _ => false) ||
  listStartsWith "keybase.io".toList l ||
  (listStartsWith ".dev".toList l && boundaryAfter (l.drop 4)) ||
  (listStartsWith ".io".toList l && boundaryAfter (l.drop 3)) ||
  (listStartsWith ".com".toList l && boundaryAfter (l.drop 4)) ||
  (listStartsWith "public".toList l &&
    (match l.drop 6 with
     | c :: rest => c.isWhitespace && listStartsWith "key".toList rest
     | [] => false)) ||
  listStartsWith "pgp".toList l

/-- Try every suffix, as `re.search` does. -/
def searchFrom : List Char → Bool
  | [] => matchesAt []
  | c :: rest => matchesAt (c :: rest) || searchFrom rest

/-- `INTERESTING_PATTERNS.search(about_text)` is not `None` (the pattern is
compiled with `re.IGNORECASE`, hence the lowercasing). -/
def INTERESTING_PATTERNS_search (s : String) : Bool :=
  searchFrom (pyLower s).data

/-- `BeautifulSoup(about_html, 'html.parser').get_text(strip=True)` for a
plain-text about field (a single text node, the shape the model covers):
the text with surrounding whitespace stripped. -/
def soup_get_text_strip (s : String) : String := pyStrip s

/-- `UserStatus = Literal["YES", "GITHUB_ONLY"]` (`models.py`). -/
inductive UserStatus where
  | YES
  | GITHUB_ONLY
  deriving DecidableEq, Repr

/-- `ContactInfo` (`models.py`). -/
structure ContactInfo where
  uid : String
  status : UserStatus
  about : Option String
  github_repo : Option String
  deriving DecidableEq, Repr

/-- `GITHUB_URL` (`hn_client.py`). -/
def GITHUB_URL : String := "https://github.com"

/-- `data.user.repositories` of the GraphQL reply; `totalCount` carries the
`.get("totalCount", 0)` default already resolved. -/
structure GraphQLUser where
  totalCount : Int
  deriving DecidableEq, Repr

/-- The decoded GraphQL JSON: whether an `"errors"` key is present, and the
`data.user` object (absent for organizations and other edge cases). -/
structure GraphQLResponse where
  hasErrors : Bool
  user : Option GraphQLUser
  deriving DecidableEq, Repr

/-- Outcome of the GraphQL POST in `get_github_profile_stats_api`:
a decoded reply, a `requests.RequestException`, or any other exception while
parsing the response. -/
inductive GithubApiOutcome where
  | ok (resp : GraphQLResponse)
  | reqError
  | parseError
  deriving DecidableEq, Repr

/-- `get_github_profile_stats_api` (`hn_client.py`): both `except` branches
return `(False, 0)`; an `"errors"` key or a missing `data.user` also yields
`(False, 0)`; otherwise `(True, totalCount)`. -/
def get_github_profile_stats_api : GithubApiOutcome → Bool × Int
  | GithubApiOutcome.reqError => (false, 0)
  | GithubApiOutcome.parseError => (false, 0)
  | GithubApiOutcome.ok resp =>
      if resp.hasErrors then (false, 0)
      else
        match resp.user with
        | none => (false, 0)
        | some u => (true, u.totalCount)

/-- The HN user JSON: its optional `"about"` field. -/
structure HNUserData where
  about : Option String
  deriving DecidableEq, Repr

/-- Everything the network hands one `process_user` call: the HN user info
(`none` when the API failed or returned nothing), the GraphQL outcome used in
token mode, and the scrape existence check used without a token. -/
structure UserEnv where
  user_data : Option HNUserData
  github_api : GithubApiOutcome
  github_scrape_ok : Bool
  deriving DecidableEq, Repr

/-- The about-section step of `process_user`: `(clean_about, status)` after
the `if about_html:` block. -/
def about_signal (user_data : HNUserData) : Option String × Option UserStatus :=
  let about_html := user_data.about.getD ""
  if about_html ≠ "" then
    let about_text := soup_get_text_strip about_html
    if INTERESTING_PATTERNS_search about_text then (some about_text, some UserStatus.YES)
    else (none, none)
  else (none, none)

/-- `github_profile_is_valid` of `process_user`: with a token, the GraphQL
result must both exist and reach `min_repo_count` (the `except` branch sets
the flag to `False`); without a token, the scrape existence check alone. -/
def github_profile_is_valid (env : UserEnv) (token_exist : Bool)
    (min_repo_count : Int) : Bool :=
  if token_exist then
    let st := get_github_profile_stats_api env.github_api
    st.1 && decide (min_repo_count ≤ st.2)
  else env.github_scrape_ok

/-- `process_user` (`filter.py`): the full per-user classification. -/
def process_user (uid : String) (env : UserEnv) (token_exist : Bool)
    (min_repo_count : Int) : Option ContactInfo :=
  match env.user_data with
  | none => none
  | some user_data =>
      let clean_about := (about_signal user_data).1
      let status0 := (about_signal user_data).2
      let valid := github_profile_is_valid env token_exist min_repo_count
      let github_repo : Option String :=
        if valid then some (GITHUB_URL ++ "/" ++ uid) else none
      let status : Option UserStatus :=
        if valid then
          match status0 with
          | none => some UserStatus.GITHUB_ONLY
          | some s => some s
        else status0
      if !valid && status.isNone then none
      else
        match status with
        | some st =>
            some { uid := uid, status := st, about := clean_about,
                   github_repo := github_repo }
        | none => none

/-- The concurrent fan-out of `main.py`: one independent `process_user` call
per user, results collected positionally. -/
def processAll (rows : List (String × UserEnv)) (token_exist : Bool)
    (min_repo_count : Int) : List (Option ContactInfo) :=
  rows.map (fun r => process_user r.1 r.2 token_exist min_repo_count)

/-! ## Ranker (`ranking.py`) -/

/-- `RankedUser` (`models.py`). -/
structure RankedUser where
  uid : String
  contact : ContactInfo
  comments : List CommentPair
  comment_count : Nat
  total_word_count : Nat
  deriving DecidableEq, Repr

/-- Token counter behind `len(s.split())`: walk the characters counting the
starts of maximal non-whitespace runs; the flag records whether the previous
character was inside a token. -/
def wordCountAux : List Char → Bool → Nat
  | [], _ => 0
  | c :: rest, inTok =>
      if c.isWhitespace then wordCountAux rest false
      else (if inTok then 0 else 1) + wordCountAux rest true

/-- `len(s.split())`: number of whitespace-delimited tokens of `s`. -/
def pySplitLen (s : String) : Nat := wordCountAux s.data false

/-- `build_ranked_user` (`ranking.py`). -/
def build_ranked_user (uid : String) (comments : List CommentPair)
    (contact_info : ContactInfo) : RankedUser :=
  { uid := uid
    contact := contact_info
    comments := comments
    comment_count := comments.length
    total_word_count := (comments.map (fun pr => pySplitLen pr.2)).sum }

/-- The order `sorted(users, key=lambda u: (u.comment_count,
u.total_word_count), reverse=True)` sorts by: `u` may come before `v` iff
`u`'s key pair is lexicographically at least `v`'s. -/
def rankLE (u v : RankedUser) : Bool :=
  decide (v.comment_count < u.comment_count ∨
    (v.comment_count = u.comment_count ∧ v.total_word_count ≤ u.total_word_count))

/-- `sort_users` (`ranking.py`): Python's `sorted` is a stable sort, which
`List.mergeSort` models exactly. -/
def sort_users (users : List RankedUser) : List RankedUser :=
  users.mergeSort rankLE

/-! ## Spec-side reformulations of the normalizer

Used to compare the code's `_get_comment_text` with the specification's
wording for the separator rule. -/

/-- The appended segments of a body, in document order: `(true, txt)` for a
paragraph block, `(false, trimmed)` for a non-empty bare text segment; other
tags and whitespace-only text segments contribute nothing. -/
def segsOf (es : List BodyElem) : List (Bool × String) :=
  es.filterMap (fun e =>
    match e with
    | BodyElem.p txt => some (true, txt)
    | BodyElem.tag => none
    | BodyElem.text s => if pyStrip s = "" then none else some (false, pyStrip s))

/-- Spec-side rendering (written from the claim's words, for comparison with
the source): insert a double newline only between CONSECUTIVE paragraph
blocks — a separator precedes a paragraph exactly when the immediately
preceding appended segment is also a paragraph. The flag records whether the
previous segment was a paragraph. -/
def claimSepGo : Bool → List (Bool × String) → List String
  | _, [] => []
  | prevPara, (isPara, t) :: rest =>
      (if isPara && prevPara then ["\n\n", t] else [t]) ++ claimSepGo isPara rest

/-- Spec-side normalizer, as the claim words it: "double-newline separator
inserted only between consecutive paragraph blocks, never before the first;
bare segments trimmed, appended with no separator; final result trimmed". -/
def normalizeC2Claim (es : List BodyElem) : String :=
  pyStrip (String.join (claimSepGo false (segsOf es)))

/-- Render segments inserting a double newline before a paragraph block
whenever ANY segment was already appended (the flag records that), which is
what the code's `if comment_parts:` test does. -/
def amendedSepGo : Bool → List (Bool × String) → List String
  | _, [] => []
  | seen, (isPara, t) :: rest =>
      (if isPara && seen then ["\n\n", t] else [t]) ++ amendedSepGo true rest

/-- The amended normalizer: separator before every paragraph block that is
not the first appended segment. -/
def normalizeAmended (es : List BodyElem) : String :=
  pyStrip (String.join (amendedSepGo false (segsOf es)))

/-! ## Concrete fixtures for witnesses -/

/-- Three well-formed comments at depths 0, 1, 2. -/
def C1wraws : List RawComment :=
  [{ username := "alice", indentDepth := 0, bodyMarkup := Commtext.ok [BodyElem.p "hello"] },
   { username := "bob", indentDepth := 1, bodyMarkup := Commtext.ok [BodyElem.p "mid"] },
   { username := "carol", indentDepth := 2, bodyMarkup := Commtext.ok [BodyElem.p "deep"] }]

/-- A non-empty depth-0 comment, then a discarded (empty-body) depth-0
comment, then a depth-1 reply: the reply's nearest depth-0 predecessor is the
discarded one. -/
def C4wraws : List RawComment :=
  [{ username := "alice", indentDepth := 0, bodyMarkup := Commtext.ok [BodyElem.p "hello"] },
   { username := "bob", indentDepth := 0, bodyMarkup := Commtext.ok [] },
   { username := "carol", indentDepth := 1, bodyMarkup := Commtext.ok [BodyElem.p "hi"] }]

/-- One well-formed row for the C5 witness. -/
def C5wtrs : List Comtr :=
  [{ hnuser := some "alice", commtext := some (Commtext.ok [BodyElem.p "hello"]),
     ind := some (some 0) }]

/-- One row whose `td.ind` cell is missing entirely. -/
def C10wtrs : List Comtr :=
  [{ hnuser := some "alice", commtext := some (Commtext.ok [BodyElem.p "hi"]),
     ind := none }]

/-- A user whose about text matches the e-mail pattern and whose GitHub
profile exists with nine public repositories. -/
def C3wenv : UserEnv :=
  { user_data := some { about := some " email me: a@b.io " },
    github_api := GithubApiOutcome.ok
      { hasErrors := false, user := some { totalCount := 9 } },
    github_scrape_ok := false }

/-- A user whose about text matches no interesting pattern but whose GitHub
profile exists with five public repositories. -/
def C3wenv2 : UserEnv :=
  { user_data := some { about := some "plain text only" },
    github_api := GithubApiOutcome.ok
      { hasErrors := false, user := some { totalCount := 5 } },
    github_scrape_ok := false }

/-- A user whose about text matches no interesting pattern and whose GitHub
profile has a single public repository. -/
def C3wenv3 : UserEnv :=
  { user_data := some { about := some "plain text only" },
    github_api := GithubApiOutcome.ok
      { hasErrors := false, user := some { totalCount := 1 } },
    github_scrape_ok := false }

/-- A user with no about section and a five-repository GitHub profile. -/
def C8wenv : UserEnv :=
  { user_data := some { about := none },
    github_api := GithubApiOutcome.ok
      { hasErrors := false, user := some { totalCount := 5 } },
    github_scrape_ok := false }

/-- Two users submitted to the concurrent filtering stage. -/
def C8wrows : List (String × UserEnv) := [("a", C8wenv), ("b", C8wenv)]

/-- The first user's environment after its GraphQL call fails. -/
def C8wfailenv : UserEnv :=
  { user_data := some { about := none },
    github_api := GithubApiOutcome.reqError,
    github_scrape_ok := false }

/-- A contact card for the ranking fixtures. -/
def C6wci : ContactInfo :=
  { uid := "t", status := UserStatus.YES, about := some "x", github_repo := none }

/-- Two ranked users tied on both sort keys. -/
def C6wru1 : RankedUser :=
  { uid := "r1", contact := C6wci, comments := [], comment_count := 2,
    total_word_count := 7 }

/-- The second of the tied ranked users. -/
def C6wru2 : RankedUser :=
  { uid := "r2", contact := C6wci, comments := [], comment_count := 2,
    total_word_count := 7 }

/-! ## Lemmas about the parser -/

/-- On fully-populated rows the backward scan is `find?` for the target
depth, returning that comment's normalized body text. -/
theorem scanParent_map_toComtr (l : List RawComment) (target : Int) :
    scanParent (l.map toComtr) target =
      (match l.find? (fun q => q.indentDepth == target) with
       | some q => get_comment_text q.bodyMarkup
       | none => "") := by
  induction l with
  | nil => rfl
  | cons rc rest ih =>
      by_cases h : rc.indentDepth = target
      · simp [scanParent, toComtr, getIndent, List.find?_cons_of_pos, h]
      · have hb : (rc.indentDepth == target) = false := by simp [h]
        simp [scanParent, toComtr, getIndent, List.find?_cons_of_neg, h, hb, ih]

/-- `preceding_comment_text` for the fully-populated comment `rc` at
position `i`: `""` unless the depth is positive, else the backward `find?`
for depth one less. -/
theorem parentTextAt_toComtr (raws : List RawComment) (i : Nat) (rc : RawComment) :
    parentTextAt (raws.map toComtr) i (toComtr rc) =
      if 0 < rc.indentDepth then
        (match (raws.take i).reverse.find?
            (fun q => q.indentDepth == rc.indentDepth - 1) with
         | some q => get_comment_text q.bodyMarkup
         | none => "")
      else "" := by
  have h1 : ((raws.map toComtr).take i).reverse = ((raws.take i).reverse).map toComtr := by
    rw [← List.map_take, List.map_reverse]
  unfold parentTextAt
  simp only [toComtr, getIndent]
  by_cases h : 0 < rc.indentDepth
  · rw [if_pos h, if_pos h, h1, scanParent_map_toComtr]
  · rw [if_neg h, if_neg h]

/-- A loop step is: add the row's contributed entry, when there is one. -/
theorem processRow_eq_pairForRow (trs : List Comtr) (idx : UserIndex) (i : Nat)
    (tr : Comtr) :
    processRow trs idx i tr =
      (match pairForRow trs i tr with
       | none => idx
       | some e => addPair idx e.1 e.2) := by
  unfold processRow pairForRow
  cases hu : tr.hnuser <;> cases hc : tr.commtext <;> simp
  split <;> simp

/-- The loop is the fold of `addPair` over the contributed entries. -/
theorem parseFrom_eq (trs : List Comtr) :
    ∀ (l : List Comtr) (i : Nat) (idx : UserIndex),
      parseFrom trs i l idx =
        (pairsFrom trs i l).foldl (fun acc e => addPair acc e.1 e.2) idx := by
  intro l
  induction l with
  | nil => intro i idx; rfl
  | cons tr rest ih =>
      intro i idx
      rw [parseFrom, processRow_eq_pairForRow]
      cases hp : pairForRow trs i tr <;> simp [pairsFrom, hp, ih]

/-- Looking a key up after `addPair`. -/
theorem lookupUser_addPair (idx : UserIndex) (v : String) (pr : CommentPair)
    (u : String) :
    lookupUser (addPair idx v pr) u =
      if v = u then lookupUser idx u ++ [pr] else lookupUser idx u := by
  induction idx with
  | nil =>
      by_cases h : v = u <;> simp [addPair, lookupUser, h]
  | cons kv rest ih =>
      obtain ⟨k, w⟩ := kv
      by_cases hkv : k = v
      · subst hkv
        by_cases hku : k = u <;> simp [addPair, lookupUser, hku]
      · by_cases hku : k = u
        · subst hku
          have hvu : ¬ v = k := fun h => hkv h.symm
          simp [addPair, lookupUser, hkv, hvu]
        · simp [addPair, lookupUser, hkv, hku, ih]

/-- Looking a key up after folding `addPair` over an entry list. -/
theorem lookupUser_foldl (pairs : List (String × CommentPair)) (idx : UserIndex)
    (u : String) :
    lookupUser (pairs.foldl (fun acc e => addPair acc e.1 e.2) idx) u =
      lookupUser idx u ++ (pairs.filter (fun e => e.1 == u)).map Prod.snd := by
  induction pairs generalizing idx with
  | nil => simp
  | cons e rest ih =>
      rw [List.foldl_cons, ih, lookupUser_addPair]
      by_cases h : e.1 = u <;> simp [List.filter_cons, h]

/-- Inversion of a contributed entry: the row had both fields, its normalized
text is non-empty, and the entry is its username with its pair. -/
theorem pairForRow_inv {trs : List Comtr} {i : Nat} {tr : Comtr}
    {e : String × CommentPair} (h : pairForRow trs i tr = some e) :
    ∃ u div, tr.hnuser = some u ∧ tr.commtext = some div ∧
      get_comment_text div ≠ "" ∧
      e = (u, (parentTextAt trs i tr, get_comment_text div)) := by
  unfold pairForRow at h
  cases hu : tr.hnuser with
  | none => rw [hu] at h; cases h
  | some u =>
      cases hc : tr.commtext with
      | none => rw [hu, hc] at h; cases h
      | some div =>
          rw [hu, hc] at h
          simp only at h
          by_cases ht : get_comment_text div = ""
          · rw [if_pos ht] at h; cases h
          · rw [if_neg ht] at h
            exact ⟨u, div, rfl, rfl, ht, (Option.some_inj.mp h).symm⟩

/-- Every contributed entry carries a non-empty own text. -/
theorem pairsFrom_snd_ne (trs : List Comtr) :
    ∀ (l : List Comtr) (i : Nat) (e : String × CommentPair),
      e ∈ pairsFrom trs i l → e.2.2 ≠ "" := by
  intro l
  induction l with
  | nil => intro i e he; cases he
  | cons tr rest ih =>
      intro i e he
      rw [pairsFrom] at he
      cases hp : pairForRow trs i tr with
      | none => rw [hp] at he; exact ih _ _ he
      | some e0 =>
          rw [hp] at he
          rcases List.mem_cons.mp he with he0 | hrest
          · subst he0
            obtain ⟨u, div, _, _, ht, hee⟩ := pairForRow_inv hp
            rw [hee]
            exact ht
          · exact ih _ _ hrest

/-- A row whose entry is `some e` puts `e` into the contributed list. -/
theorem pairsFrom_mem_of (trs : List Comtr) :
    ∀ (l : List Comtr) (i0 j : Nat) (hj : j < l.length) (e : String × CommentPair),
      pairForRow trs (i0 + j) (l.get ⟨j, hj⟩) = some e → e ∈ pairsFrom trs i0 l := by
  intro l
  induction l with
  | nil => intro i0 j hj; cases hj
  | cons tr rest ih =>
      intro i0 j hj e hp
      cases j with
      | zero =>
          simp only [List.get] at hp
          rw [Nat.add_zero] at hp
          simp [pairsFrom, hp]
      | succ j' =>
          simp only [List.get] at hp
          have harith : i0 + (j' + 1) = (i0 + 1) + j' := by omega
          rw [harith] at hp
          have hmem := ih (i0 + 1) j' (Nat.lt_of_succ_lt_succ hj) e hp
          cases hq : pairForRow trs i0 tr <;> simp [pairsFrom, hq, hmem]

/-! ## Lemmas about the normalizer -/

/-- The loop of `_get_comment_text` renders the body's segments, placing a
double newline before a paragraph exactly when something (any segment, or any
initial part) was already accumulated. -/
theorem commentLoop_amended (es : List BodyElem) :
    ∀ parts : List String,
      commentLoop parts es = parts ++ amendedSepGo (!parts.isEmpty) (segsOf es) := by
  induction es with
  | nil => intro parts; simp [commentLoop, segsOf, amendedSepGo]
  | cons e rest ih =>
      intro parts
      cases e with
      | p txt =>
          cases parts <;> simp [commentLoop, segsOf, amendedSepGo, ih]
      | tag =>
          simp [commentLoop, segsOf, ih]
      | text s =>
          by_cases hs : pyStrip s = "" <;>
            cases parts <;> simp [commentLoop, segsOf, amendedSepGo, ih, hs]

/-! ## Lemmas about the classifier and the ranker -/

/-- The about-section step either flags the user interesting, carrying the
extracted text, or yields nothing at all. -/
theorem about_signal_cases (ud : HNUserData) :
    (∃ t, about_signal ud = (some t, some UserStatus.YES)) ∨
    about_signal ud = (none, none) := by
  unfold about_signal
  by_cases h1 : ud.about.getD "" ≠ ""
  · rw [if_pos h1]
    by_cases h2 : INTERESTING_PATTERNS_search (soup_get_text_strip (ud.about.getD ""))
    · left
      exact ⟨_, by rw [if_pos h2]⟩
    · right
      rw [if_neg h2]
  · right
    rw [if_neg h1]

/-- A user the HN API knows nothing about is never interesting. -/
theorem process_user_none (uid : String) (env : UserEnv) (token_exist : Bool)
    (min_repo_count : Int) (henv : env.user_data = none) :
    process_user uid env token_exist min_repo_count = none := by
  unfold process_user
  rw [henv]

/-- With an invalid (or failed) external profile, classification reduces to
the about signal alone, with no profile reference. -/
theorem process_user_invalid (uid : String) (env : UserEnv) (token_exist : Bool)
    (min_repo_count : Int) (ud : HNUserData)
    (henv : env.user_data = some ud)
    (hval : github_profile_is_valid env token_exist min_repo_count = false) :
    process_user uid env token_exist min_repo_count =
      (match (about_signal ud).2 with
       | some st =>
           some { uid := uid, status := st, about := (about_signal ud).1,
                  github_repo := none }
       | none => none) := by
  unfold process_user
  rw [henv]
  cases h2 : (about_signal ud).2 <;> simp [hval, h2]

/-- `rankLE` is transitive. -/
theorem rankLE_trans (a b c : RankedUser) :
    rankLE a b → rankLE b c → rankLE a c := by
  simp only [rankLE, decide_eq_true_eq]
  omega

/-- `rankLE` is total. -/
theorem rankLE_total (a b : RankedUser) : rankLE a b || rankLE b a := by
  simp only [rankLE, Bool.or_eq_true, decide_eq_true_eq]
  omega

/-! ## Claim theorems -/

/-- C1: for every sequence of raw comments, a comment at position `i` with
indentation depth `d > 0` receives as `preceding_comment_text` the normalized
body of the first comment found scanning backwards from position `i - 1`
whose depth is exactly `d - 1`, and `""` when no such comment exists; a
depth-0 comment always receives `""`. -/
theorem C1_parent_linking (raws : List RawComment) (i : Nat) (h : i < raws.length) :
    ((raws.get ⟨i, h⟩).indentDepth = 0 →
      parentTextAt (raws.map toComtr) i (toComtr (raws.get ⟨i, h⟩)) = "") ∧
    (0 < (raws.get ⟨i, h⟩).indentDepth →
      parentTextAt (raws.map toComtr) i (toComtr (raws.get ⟨i, h⟩)) =
        (match (raws.take i).reverse.find?
            (fun q => q.indentDepth == (raws.get ⟨i, h⟩).indentDepth - 1) with
         | some q => get_comment_text q.bodyMarkup
         | none => "")) := by
  constructor
  · intro h0
    rw [parentTextAt_toComtr, if_neg (by rw [h0]; exact lt_irrefl 0)]
  · intro hpos
    rw [parentTextAt_toComtr, if_pos hpos]

/-- C1 witness: in a depth-0/1/2 thread, the depth-2 comment links to the
depth-1 comment's text. -/
theorem C1_parent_linking_witness :
    parentTextAt (C1wraws.map toComtr) 2 (toComtr (C1wraws.get ⟨2, by decide⟩)) = "mid" := by
  have h := (C1_parent_linking C1wraws 2 (by decide)).2 (by decide)
  rw [h]
  rfl

/-- C4: when the first comment found scanning backwards at depth `d - 1` is a
discarded one (empty normalized body), the scan stops there and the parent
text is `""` — it does not continue to an earlier non-empty depth-`(d-1)`
comment. -/
theorem C4_discarded_parent (raws : List RawComment) (i : Nat) (h : i < raws.length)
    (q : RawComment)
    (hpos : 0 < (raws.get ⟨i, h⟩).indentDepth)
    (hfind : (raws.take i).reverse.find?
        (fun r => r.indentDepth == (raws.get ⟨i, h⟩).indentDepth - 1) = some q)
    (hempty : get_comment_text q.bodyMarkup = "") :
    parentTextAt (raws.map toComtr) i (toComtr (raws.get ⟨i, h⟩)) = "" := by
  rw [parentTextAt_toComtr, if_pos hpos, hfind]
  exact hempty

/-- C4 witness: `C4wraws` places a non-empty depth-0 comment before a
discarded depth-0 comment; the depth-1 comment still gets parent text `""`. -/
theorem C4_discarded_parent_witness :
    parentTextAt (C4wraws.map toComtr) 2 (toComtr (C4wraws.get ⟨2, by decide⟩)) = "" :=
  C4_discarded_parent C4wraws 2 (by decide)
    { username := "bob", indentDepth := 0, bodyMarkup := Commtext.ok [] }
    (by decide) (by decide) rfl

/-- C5: a row whose normalized own text is empty contributes nothing
(`continue`), and every pair stored in the resulting index has a non-empty
own-text component. -/
theorem C5_no_empty_pairs (trs : List Comtr) (idx : UserIndex) (i : Nat)
    (tr : Comtr) (div : Commtext) (u : String) (pr : CommentPair) :
    (tr.commtext = some div → get_comment_text div = "" →
      processRow trs idx i tr = idx) ∧
    (pr ∈ lookupUser (parse_comments_by_user trs) u → pr.2 ≠ "") := by
  constructor
  · intro hc ht
    unfold processRow
    rw [hc]
    cases tr.hnuser <;> simp [ht]
  · intro hmem
    rw [parse_comments_by_user, parseFrom_eq, lookupUser_foldl] at hmem
    simp only [lookupUser, List.nil_append] at hmem
    obtain ⟨e, hef, hsnd⟩ := List.mem_map.mp hmem
    have hememb := (List.mem_filter.mp hef).1
    have := pairsFrom_snd_ne trs trs 0 e hememb
    rw [hsnd] at this
    exact this

/-- C5 witness: a concrete empty-bodied row is skipped, and the one pair the
concrete one-comment thread stores has non-empty own text. -/
theorem C5_no_empty_pairs_witness :
    processRow ([] : List Comtr) [] 0
      { hnuser := some "bob", commtext := some (Commtext.ok []), ind := none } = [] ∧
    ("hello" : String) ≠ "" := by
  constructor
  · exact (C5_no_empty_pairs [] [] 0
      { hnuser := some "bob", commtext := some (Commtext.ok []), ind := none }
      (Commtext.ok []) "bob" ("", "")).1 rfl rfl
  · exact (C5_no_empty_pairs C5wtrs [] 0 default Commtext.malformed "alice"
      ("", "hello")).2 (by decide)

/-- C9: a row missing its username or its body contributes nothing to the
index and does not abort the rest of the parse — the whole parse is the fold
of the per-row contributions, a skipped row simply contributing none — and a
failure while decoding one body's markup yields the empty string for that
comment instead of propagating. -/
theorem C9_fault_isolation (trs : List Comtr) (idx : UserIndex) (i : Nat)
    (tr : Comtr) :
    ((tr.hnuser = none ∨ tr.commtext = none) →
      processRow trs idx i tr = idx ∧ pairForRow trs i tr = none) ∧
    get_comment_text Commtext.malformed = "" ∧
    parse_comments_by_user trs =
      (pairsFrom trs 0 trs).foldl (fun acc e => addPair acc e.1 e.2) [] := by
  refine ⟨?_, rfl, parseFrom_eq trs trs 0 []⟩
  intro hbad
  unfold processRow pairForRow
  rcases hbad with hb | hb
  · rw [hb]; exact ⟨rfl, rfl⟩
  · rw [hb]
    cases tr.hnuser <;> exact ⟨rfl, rfl⟩

/-- C9 witness: a row without a username contributes nothing, and a malformed
body decodes to the empty string. -/
theorem C9_fault_isolation_witness :
    processRow ([] : List Comtr) [] 0
      { hnuser := none, commtext := some (Commtext.ok [BodyElem.p "A"]), ind := none }
      = [] ∧
    get_comment_text Commtext.malformed = "" := by
  have h := C9_fault_isolation [] [] 0
    { hnuser := none, commtext := some (Commtext.ok [BodyElem.p "A"]), ind := none }
  exact ⟨(h.1 (Or.inl rfl)).1, h.2.1⟩

/-- C10: a row with no indentation cell, or with a cell lacking the integer
`indent` attribute, skips the parent lookup entirely: its parent text is `""`
(exactly like a root comment) while its own pair still enters the index. -/
theorem C10_missing_indent (trs : List Comtr) (i : Nat) (h : i < trs.length)
    (u : String) (div : Commtext)
    (hu : (trs.get ⟨i, h⟩).hnuser = some u)
    (hc : (trs.get ⟨i, h⟩).commtext = some div)
    (ht : get_comment_text div ≠ "")
    (hind : (trs.get ⟨i, h⟩).ind = none ∨ (trs.get ⟨i, h⟩).ind = some none) :
    parentTextAt trs i (trs.get ⟨i, h⟩) = "" ∧
    pairForRow trs i (trs.get ⟨i, h⟩) = some (u, ("", get_comment_text div)) ∧
    ("", get_comment_text div) ∈ lookupUser (parse_comments_by_user trs) u := by
  have hgi : getIndent (trs.get ⟨i, h⟩) = none := by
    unfold getIndent
    rcases hind with hb | hb <;> rw [hb]
  have hpt : parentTextAt trs i (trs.get ⟨i, h⟩) = "" := by
    unfold parentTextAt
    rw [hgi]
  have hpr : pairForRow trs i (trs.get ⟨i, h⟩) = some (u, ("", get_comment_text div)) := by
    unfold pairForRow
    rw [hu, hc]
    simp only [if_neg ht, hpt]
  refine ⟨hpt, hpr, ?_⟩
  have hmem : (u, (("" : String), get_comment_text div)) ∈ pairsFrom trs 0 trs := by
    apply pairsFrom_mem_of trs trs 0 i h
    rw [Nat.zero_add]
    exact hpr
  rw [parse_comments_by_user, parseFrom_eq, lookupUser_foldl]
  simp only [lookupUser, List.nil_append]
  exact List.mem_map.mpr ⟨(u, ("", get_comment_text div)),
    List.mem_filter.mpr ⟨hmem, by simp⟩, rfl⟩

/-- C10 witness: the single row of `C10wtrs` has no `td.ind` cell; its parent
text is `""` and its pair is stored under its username. -/
theorem C10_missing_indent_witness :
    parentTextAt C10wtrs 0 (C10wtrs.get ⟨0, by decide⟩) = "" ∧
    ("", get_comment_text (Commtext.ok [BodyElem.p "hi"])) ∈
      lookupUser (parse_comments_by_user C10wtrs) "alice" := by
  have h := C10_missing_indent C10wtrs 0 (by decide) "alice"
    (Commtext.ok [BodyElem.p "hi"]) rfl rfl (by decide) (Or.inl rfl)
  exact ⟨h.1, h.2.2⟩

/-- C2 counterexample: on a body consisting of a bare text segment followed
by one paragraph block, the code inserts a double-newline separator before
the FIRST (and only) paragraph block, which the claim's separator rule
("only between consecutive paragraph blocks, never before the first")
forbids: the claim-side normalizer yields `"xA"`, the code yields
`"x\n\nA"`. -/
theorem C2_counterexample :
    get_comment_text (Commtext.ok [BodyElem.text "x", BodyElem.p "A"]) = "x\n\nA" ∧
    normalizeC2Claim [BodyElem.text "x", BodyElem.p "A"] = "xA" ∧
    get_comment_text (Commtext.ok [BodyElem.text "x", BodyElem.p "A"]) ≠
      normalizeC2Claim [BodyElem.text "x", BodyElem.p "A"] := by
  exact ⟨rfl, rfl, by decide⟩

/-- C2 amended: the normalizer concatenates the appended segments in document
order with a double-newline separator inserted before a paragraph block
whenever ANY earlier segment (paragraph or bare) was already appended —
never at the very start — bare inline segments being trimmed and appended
with no separator before them, and the final result trimmed; in particular a
body with exactly two paragraph blocks `"A"` and `"B"` normalizes to
`"A\n\nB"`, and an empty or whitespace-only body normalizes to `""`. -/
theorem C2_normalizer_amended (es : List BodyElem) (s : String) :
    get_comment_text (Commtext.ok es) = normalizeAmended es ∧
    get_comment_text (Commtext.ok [BodyElem.p "A", BodyElem.p "B"]) = "A\n\nB" ∧
    (pyStrip s = "" → get_comment_text (Commtext.ok [BodyElem.text s]) = "") ∧
    get_comment_text (Commtext.ok []) = "" := by
  refine ⟨?_, rfl, ?_, rfl⟩
  · rw [get_comment_text, commentLoop_amended es [], normalizeAmended]
    rfl
  · intro hs
    rw [get_comment_text, commentLoop_amended [BodyElem.text s] []]
    simp [segsOf, amendedSepGo, hs]
    rfl

/-- C2 witness: a whitespace-only body normalizes to the empty string. -/
theorem C2_normalizer_amended_witness :
    get_comment_text (Commtext.ok [BodyElem.text "  "]) = "" :=
  (C2_normalizer_amended [] "  ").2.2.1 (by decide)

/-- C7: every ContactInfo the classifier returns satisfies the pairing
invariant: status YES carries a non-null about, status GITHUB_ONLY carries a
null about and a non-null profile reference. -/
theorem C7_contact_invariant (uid : String) (env : UserEnv) (token_exist : Bool)
    (min_repo_count : Int) (ci : ContactInfo)
    (h : process_user uid env token_exist min_repo_count = some ci) :
    (ci.status = UserStatus.YES → ci.about.isSome) ∧
    (ci.status = UserStatus.GITHUB_ONLY →
      ci.about = none ∧ ci.github_repo.isSome) := by
  cases henv : env.user_data with
  | none =>
      rw [process_user_none uid env token_exist min_repo_count henv] at h
      exact Option.noConfusion h
  | some ud =>
      by_cases hval : github_profile_is_valid env token_exist min_repo_count
      · rw [process_user, henv] at h
        rcases about_signal_cases ud with ⟨t, hab⟩ | hab <;>
          simp [hval, hab] at h <;> rw [← h] <;> simp
      · have hval' : github_profile_is_valid env token_exist min_repo_count = false := by
          simpa using hval
        rw [process_user_invalid uid env token_exist min_repo_count ud henv hval'] at h
        rcases about_signal_cases ud with ⟨t, hab⟩ | hab <;> rw [hab] at h
        · have hci : ContactInfo.mk uid UserStatus.YES (some t) none = ci :=
            Option.some.inj h
          rw [← hci]
          simp
        · exact Option.noConfusion h

/-- C7 witness: the card returned for the concrete GITHUB_ONLY user has a
null about and a profile reference. -/
theorem C7_contact_invariant_witness :
    ({ uid := "b", status := UserStatus.GITHUB_ONLY, about := none,
       github_repo := some "https://github.com/b" } : ContactInfo).about = none := by
  have h := C7_contact_invariant "b" C8wenv true 3
    { uid := "b", status := UserStatus.GITHUB_ONLY, about := none,
      github_repo := some "https://github.com/b" } (by decide)
  exact (h.2 rfl).1

/-- C3: the classifier's fixed decision order. A present, matching about text
yields status YES carrying that text, with the profile reference still
resolved but the status not overwritten; in token mode the profile is valid
only if it exists (no GraphQL errors, a user object) with at least
`min_repo_count` public repositories; without a token existence alone
decides; a valid profile with no prior YES — the about text absent or
present but not matching the pattern — yields GITHUB_ONLY with the
canonical reference; with neither signal the classifier returns nothing. -/
theorem C3_classifier_order (uid : String) (env : UserEnv) (token_exist : Bool)
    (min_repo_count : Int) (ud : HNUserData) (a : String)
    (hasErr : Bool) (gquser : Option GraphQLUser) :
    (env.user_data = some ud → ud.about = some a → a ≠ "" →
      INTERESTING_PATTERNS_search (soup_get_text_strip a) = true →
      process_user uid env token_exist min_repo_count =
        some { uid := uid, status := UserStatus.YES,
               about := some (soup_get_text_strip a),
               github_repo :=
                 if github_profile_is_valid env token_exist min_repo_count then
                   some (GITHUB_URL ++ "/" ++ uid)
                 else none }) ∧
    (env.user_data = some ud →
      (∀ b, ud.about = some b →
        INTERESTING_PATTERNS_search (soup_get_text_strip b) = false) →
      env.github_api = GithubApiOutcome.ok { hasErrors := hasErr, user := gquser } →
      process_user uid env true min_repo_count =
        (match gquser with
         | some gu =>
             if hasErr = false ∧ min_repo_count ≤ gu.totalCount then
               some { uid := uid, status := UserStatus.GITHUB_ONLY, about := none,
                      github_repo := some (GITHUB_URL ++ "/" ++ uid) }
             else none
         | none => none)) ∧
    (env.user_data = some ud →
      (∀ b, ud.about = some b →
        INTERESTING_PATTERNS_search (soup_get_text_strip b) = false) →
      process_user uid env false min_repo_count =
        (if env.github_scrape_ok then
           some { uid := uid, status := UserStatus.GITHUB_ONLY, about := none,
                  github_repo := some (GITHUB_URL ++ "/" ++ uid) }
         else none)) ∧
    (env.user_data = some ud →
      (∀ b, ud.about = some b →
        INTERESTING_PATTERNS_search (soup_get_text_strip b) = false) →
      github_profile_is_valid env token_exist min_repo_count = false →
      process_user uid env token_exist min_repo_count = none) := by
  have haboutnone :
      (∀ b, ud.about = some b →
        INTERESTING_PATTERNS_search (soup_get_text_strip b) = false) →
      about_signal ud = (none, none) := by
    intro hno
    unfold about_signal
    cases hud : ud.about with
    | none => simp
    | some b =>
        simp only [Option.getD_some]
        by_cases hb : b ≠ ""
        · rw [if_pos hb, if_neg (by simp [hno b hud])]
        · rw [if_neg hb]
  refine ⟨?_, ?_, ?_, ?_⟩
  · intro henv hsome hne hsearch
    have hab : about_signal ud = (some (soup_get_text_strip a), some UserStatus.YES) := by
      unfold about_signal
      rw [hsome]
      simp only [Option.getD_some]
      rw [if_pos hne, if_pos hsearch]
    by_cases hval : github_profile_is_valid env token_exist min_repo_count <;>
      simp [process_user, henv, hab, hval]
  · intro henv hno hapi
    have hab := haboutnone hno
    cases gquser with
    | none =>
        cases hasErr <;>
          simp [process_user, henv, hab, github_profile_is_valid,
            get_github_profile_stats_api, hapi]
    | some gu =>
        by_cases hcnt : min_repo_count ≤ gu.totalCount <;>
          cases hasErr <;>
          simp [process_user, henv, hab, github_profile_is_valid,
            get_github_profile_stats_api, hapi, hcnt]
  · intro henv hno
    have hab := haboutnone hno
    cases hscr : env.github_scrape_ok <;>
      simp [process_user, henv, hab, github_profile_is_valid, hscr]
  · intro henv hno hval
    have hab := haboutnone hno
    rw [process_user_invalid uid env token_exist min_repo_count ud henv hval, hab]

/-- C3 witness: a matching about text yields status YES carrying that text,
with the profile reference resolved on the side; a present but non-matching
about text with a five-repository profile (minCount 3) yields GITHUB_ONLY;
the same about text with a one-repository profile yields nothing. -/
theorem C3_classifier_order_witness :
    process_user "u1" C3wenv true 3 =
      some { uid := "u1", status := UserStatus.YES,
             about := some (soup_get_text_strip " email me: a@b.io "),
             github_repo :=
               if github_profile_is_valid C3wenv true 3 then
                 some (GITHUB_URL ++ "/" ++ "u1")
               else none } ∧
    process_user "u2" C3wenv2 true 3 =
      some { uid := "u2", status := UserStatus.GITHUB_ONLY, about := none,
             github_repo := some (GITHUB_URL ++ "/" ++ "u2") } ∧
    process_user "u3" C3wenv3 true 3 = none := by
  refine ⟨?_, ?_, ?_⟩
  · exact (C3_classifier_order "u1" C3wenv true 3 { about := some " email me: a@b.io " }
      " email me: a@b.io " false none).1 rfl rfl (by decide) (by decide)
  · have h := (C3_classifier_order "u2" C3wenv2 true 3
      { about := some "plain text only" } "" false
      (some { totalCount := 5 })).2.1 rfl
      (fun b hb => by rw [← Option.some.inj hb]; decide) rfl
    rw [h]
    rfl
  · have h := (C3_classifier_order "u3" C3wenv3 true 3
      { about := some "plain text only" } "" false
      (some { totalCount := 1 })).2.1 rfl
      (fun b hb => by rw [← Option.some.inj hb]; decide) rfl
    rw [h]
    rfl

/-- C8: a network failure (or an unparseable reply) while checking the
external profile is caught and classified exactly like a non-existent
profile, and replacing one user's submission leaves every other user's
classification result unchanged. -/
theorem C8_failure_isolation (uid : String) (ud : Option HNUserData)
    (scrape : Bool) (min_repo_count : Int) (rows : List (String × UserEnv))
    (token_exist : Bool) (i j : Nat) (r : String × UserEnv) :
    (process_user uid
        { user_data := ud, github_api := GithubApiOutcome.reqError,
          github_scrape_ok := scrape } true min_repo_count =
      process_user uid
        { user_data := ud,
          github_api := GithubApiOutcome.ok { hasErrors := false, user := none },
          github_scrape_ok := scrape } true min_repo_count) ∧
    (process_user uid
        { user_data := ud, github_api := GithubApiOutcome.parseError,
          github_scrape_ok := scrape } true min_repo_count =
      process_user uid
        { user_data := ud,
          github_api := GithubApiOutcome.ok { hasErrors := false, user := none },
          github_scrape_ok := scrape } true min_repo_count) ∧
    (j ≠ i →
      (processAll (rows.set i r) token_exist min_repo_count)[j]? =
        (processAll rows token_exist min_repo_count)[j]?) := by
  refine ⟨?_, ?_, ?_⟩
  · cases ud with
    | none => rfl
    | some ud0 =>
        rw [process_user_invalid uid _ true min_repo_count ud0 rfl (by rfl),
          process_user_invalid uid _ true min_repo_count ud0 rfl (by rfl)]
  · cases ud with
    | none => rfl
    | some ud0 =>
        rw [process_user_invalid uid _ true min_repo_count ud0 rfl (by rfl),
          process_user_invalid uid _ true min_repo_count ud0 rfl (by rfl)]
  · intro hij
    unfold processAll
    rw [List.map_set]
    exact List.getElem?_set_ne (fun h => hij h.symm)

/-- C8 witness: failing the first user's GraphQL call does not change the
second user's result. -/
theorem C8_failure_isolation_witness :
    (processAll (C8wrows.set 0 ("a", C8wfailenv)) true 3)[1]? =
      (processAll C8wrows true 3)[1]? :=
  (C8_failure_isolation "a" none false 3 C8wrows true 0 1
    ("a", C8wfailenv)).2.2 (by decide)

/-- C6: `build_ranked_user` sets `comment_count` to the number of comments and
`total_word_count` to the summed own-text token counts (parent text excluded);
`sort_users` permutes its input into an order that is pairwise descending on
the (comment count, total word count) key, and users tied on both keys keep
their original relative order. -/
theorem C6_ranking (uid : String) (comments : List CommentPair) (ci : ContactInfo)
    (l : List RankedUser) (u v : RankedUser) :
    (build_ranked_user uid comments ci).comment_count = comments.length ∧
    (build_ranked_user uid comments ci).total_word_count =
      (comments.map (fun pr => pySplitLen pr.2)).sum ∧
    (sort_users l).Perm l ∧
    (sort_users l).Pairwise (fun a b =>
      b.comment_count < a.comment_count ∨
        (b.comment_count = a.comment_count ∧
          b.total_word_count ≤ a.total_word_count)) ∧
    (u.comment_count = v.comment_count → u.total_word_count = v.total_word_count →
      [u, v].Sublist l → [u, v].Sublist (sort_users l)) := by
  refine ⟨rfl, rfl, ?_, ?_, ?_⟩
  · exact List.mergeSort_perm l rankLE
  · have hs := List.sorted_mergeSort rankLE_trans rankLE_total l
    exact hs.imp (fun hab => by simpa [rankLE] using hab)
  · intro hcc htwc hsub
    apply List.pair_sublist_mergeSort rankLE_trans rankLE_total _ hsub
    simp [rankLE]
    omega

/-- C6 witness: two users tied on both keys keep their original order through
the sort. -/
theorem C6_ranking_witness :
    [C6wru1, C6wru2].Sublist (sort_users [C6wru1, C6wru2]) :=
  (C6_ranking "t" [] C6wci [C6wru1, C6wru2] C6wru1 C6wru2).2.2.2.2 rfl rfl
    (List.Sublist.refl _)

end HNProspector
